import Mathlib

/-!
Shallow embedding of the CrashXP round engine and reward economy
(`src/app/page.tsx`).  JavaScript numbers are modelled as `Int` where the
code only ever holds integers (XP, counters) and as `ℚ` where the code
holds fractional values (multipliers, weights).  React `setState` calls
with functional updaters are modelled as sequential state updates: each
updater sees the result of the previous one, which is the semantics React
guarantees inside a single event handler.
-/

/-- Player economy state (the `user` state object of `page.tsx`),
restricted to the fields the round engine and reward economy mutate. -/
structure UserState where
  xp : Int
  totalWagered : Int
  totalWon : Int
  gamesPlayed : Int
  dailyGamesPlayed : Int
  biggestWin : Int
  biggestMultiplier : ℚ
  winStreak : Int
  currentStreak : Int
  dailyStreak : Int
  lastPlayDate : String
  unlockedCosmetics : List String
  activeCosmetic : String
  deriving Repr, DecidableEq

/-- Round state (the `game` state object of `page.tsx`).  `crashPoint` is
`0` while unset (the JS value is `null`, and the tick guards on its
truthiness, which for a number means `≠ 0`). -/
structure GameState where
  isWaiting : Bool
  isRunning : Bool
  isCrashed : Bool
  isExploding : Bool
  userCashedOut : Bool
  userWagerXP : Int
  crashPoint : ℚ
  currentMultiplier : ℚ
  userCashOutMultiplier : Option ℚ
  userWinningsXP : Int
  lastRounds : List ℚ
  deriving Repr, DecidableEq

/-- The synchronous state change of `startRound` (page.tsx 795-804):
install the freshly generated crash point `cp` and reset the multiplier.
The generated crash point is a parameter because `generateCrashPoint`
draws randomness. -/
def startRound (cp : ℚ) (g : GameState) : GameState :=
  { g with crashPoint := cp, currentMultiplier := 1, isExploding := false, isCrashed := false }

/-- `placeWager` (page.tsx 806-851).  Guards in source order: a running
round, `wager <= 0`, `wager > user.xp` each return with no state change;
otherwise the wager is deducted from `xp`, the round flags are set and
`startRound` runs with the generated crash point `cp`. -/
def placeWager (cp : ℚ) (u : UserState) (g : GameState) : UserState × GameState :=
  if g.isRunning then (u, g)
  else if g.userWagerXP ≤ 0 then (u, g)
  else if g.userWagerXP > u.xp then (u, g)
  else
    ({ u with xp := u.xp - g.userWagerXP },
     startRound cp
       { g with
         userWagerXP := g.userWagerXP
         isWaiting := false
         isRunning := true
         userCashedOut := false
         isCrashed := false
         isExploding := false
         userCashOutMultiplier := none
         userWinningsXP := 0 })

/-- `updateWinStreak` (page.tsx 684-706): no-op for guests; a win
increments `currentStreak` and raises `winStreak` to the new maximum; a
loss resets `currentStreak` to 0. -/
def updateWinStreak (isGuest : Bool) (won : Bool) (u : UserState) : UserState :=
  if isGuest then u
  else if won then
    { u with
      currentStreak := u.currentStreak + 1
      winStreak :=
        if u.currentStreak + 1 > u.winStreak then u.currentStreak + 1 else u.winStreak }
  else { u with currentStreak := 0 }

/-- `cashOut` (page.tsx 853-910).  No-op unless the round is running and
not yet cashed out.  Otherwise captures the current multiplier, computes
`winnings = floor(wager * multiplier * xpBoostMultiplier)`, credits the
player, marks the round cashed out and stops it, then runs
`updateWinStreak(true)`. -/
def cashOut (isGuest : Bool) (xpBoostMultiplier : ℚ) (u : UserState) (g : GameState) :
    UserState × GameState :=
  if ¬g.isRunning ∨ g.userCashedOut then (u, g)
  else
    let multiplier := g.currentMultiplier
    let winnings : Int := ⌊(g.userWagerXP : ℚ) * multiplier * xpBoostMultiplier⌋
    let u1 : UserState :=
      { u with
        xp := u.xp + winnings
        totalWon := u.totalWon + winnings
        totalWagered := u.totalWagered + g.userWagerXP
        gamesPlayed := u.gamesPlayed + 1
        dailyGamesPlayed := u.dailyGamesPlayed + 1
        biggestWin := if winnings > u.biggestWin then winnings else u.biggestWin
        biggestMultiplier :=
          if multiplier > u.biggestMultiplier then multiplier else u.biggestMultiplier }
    let g1 : GameState :=
      { g with
        userCashedOut := true
        userCashOutMultiplier := some multiplier
        userWinningsXP := winnings
        isRunning := false
        isCrashed := false }
    (updateWinStreak isGuest true u1, g1)

/-- `crashGame` (page.tsx 708-760).  Stops the round (`isRunning = false`,
`isCrashed = true`); when the player had not cashed out, the loss-side
stat updates run only for authenticated users, and `updateWinStreak(false)`
resets the streak (itself guest-gated); finally the settled multiplier is
prepended to `lastRounds`, capped at 10 entries (`slice(0, 10)`). -/
def crashGame (isGuest : Bool) (u : UserState) (g : GameState) : UserState × GameState :=
  let g1 : GameState := { g with isRunning := false, isCrashed := true, isExploding := true }
  let u1 : UserState :=
    if ¬g.userCashedOut ∧ ¬isGuest then
      { u with
        totalWagered := u.totalWagered + g.userWagerXP
        gamesPlayed := u.gamesPlayed + 1
        dailyGamesPlayed := u.dailyGamesPlayed + 1 }
    else u
  let u2 : UserState := if ¬g.userCashedOut then updateWinStreak isGuest false u1 else u1
  (u2, { g1 with lastRounds := (g1.currentMultiplier :: g1.lastRounds).take 10 })

/-- The multiplier curve of the climb tick (page.tsx 770):
`1 + Math.pow(elapsed / 1000, 2) * 0.1` with `elapsed` in milliseconds. -/
def climbMultiplier (elapsed : ℕ) : ℚ :=
  1 + ((elapsed : ℚ) / 1000) ^ 2 * (1 / 10)

/-- State of the running climb loop (`startMultiplierClimb`, page.tsx
762-793): the game state, the interval-local `lastMultiplier`, and
whether the crash clamp has fired (interval cleared, `crashGame`
scheduled). -/
structure ClimbState where
  game : GameState
  lastMultiplier : ℚ
  crashed : Bool
  deriving Repr, DecidableEq

/-- One interval tick of `startMultiplierClimb` (page.tsx 768-792) at
elapsed time `elapsed`.  After the crash clamp the interval is cleared,
so a tick on a crashed state is a no-op.  Otherwise: if the crash point
is set (JS truthiness: `≠ 0`) and the computed multiplier reaches it, the
multiplier is clamped to exactly the crash point and the crash is
scheduled; else the stored multiplier is refreshed only when it moved by
more than `0.01` since the last stored value. -/
def climbTick (elapsed : ℕ) (s : ClimbState) : ClimbState :=
  if s.crashed then s
  else
    let newMultiplier := climbMultiplier elapsed
    if s.game.crashPoint ≠ 0 ∧ newMultiplier ≥ s.game.crashPoint then
      { s with
        game := { s.game with currentMultiplier := s.game.crashPoint }
        crashed := true }
    else if |newMultiplier - s.lastMultiplier| > 1 / 100 then
      { s with
        game := { s.game with currentMultiplier := newMultiplier }
        lastMultiplier := newMultiplier }
    else s

/-- Run the climb loop over a list of tick times. -/
def runClimb (s : ClimbState) (ts : List ℕ) : ClimbState :=
  ts.foldl (fun a t => climbTick t a) s

/-- The climb loop as started by `startMultiplierClimb`: `lastMultiplier`
initialised to `1.00`, no crash scheduled yet. -/
def runRound (g0 : GameState) (ts : List ℕ) : ClimbState :=
  runClimb { game := g0, lastMultiplier := 1, crashed := false } ts

/-- `generateCrashPoint` (page.tsx 283-291), parameterised by the two
uniform draws: `u` selects the bucket, `u2` is the fresh `Math.random()`
of the chosen branch. -/
def generateCrashPoint (u u2 : ℚ) : ℚ :=
  if u < 1/2 then 101/100 + u2 * (1/2)
  else if u < 4/5 then 3/2 + u2 * (3/2)
  else if u < 19/20 then 3 + u2 * 7
  else 10 + u2 * 40

/-- A mystery-box reward entry (page.tsx 567-572): a tagged record whose
optional fields depend on `type`; only `weight` drives the sampler. -/
structure Reward where
  type : String
  amount : Option Int
  id : Option String
  value : Option ℚ
  duration : Option Int
  rarity : String
  message : String
  weight : ℚ
  deriving Repr, DecidableEq

/-- Total weight of a reward list (page.tsx 575). -/
def totalWeight (l : List Reward) : ℚ :=
  (l.map Reward.weight).sum

/-- The scan loop of `getWeightedRandomReward` (page.tsx 577-582): return
the first entry with `random < weight`, else subtract the weight and
continue. -/
def weightedScan : List Reward → ℚ → Option Reward
  | [], _ => none
  | x :: xs, r => if r < x.weight then some x else weightedScan xs (r - x.weight)

/-- `getWeightedRandomReward` (page.tsx 574-584): the scan loop with
`rewardsList[0]` as fallback when the loop falls through. -/
def getWeightedRandomReward (rewardsList : List Reward) (r : ℚ) : Option Reward :=
  match weightedScan rewardsList r with
  | some x => some x
  | none => rewardsList.head?

/-- Modelled from the spec sentence for C8 only (refinement target, not
source code): the first entry whose cumulative weight span `[acc, acc+w)`
contains the draw. -/
def spanFirst (acc : ℚ) : List Reward → ℚ → Option Reward
  | [], _ => none
  | x :: xs, r =>
      if acc ≤ r ∧ r < acc + x.weight then some x else spanFirst (acc + x.weight) xs r

/-- `buyCosmetic` (page.tsx 1298-1314): guest, already-owned and
unaffordable purchases are rejected with no state change; otherwise the
price is deducted and the cosmetic unlocked and equipped. -/
def buyCosmetic (isGuest : Bool) (id : String) (price : Int) (u : UserState) : UserState :=
  if isGuest then u
  else if id ∈ u.unlockedCosmetics then u
  else if u.xp < price then u
  else
    { u with
      xp := u.xp - price
      unlockedCosmetics := u.unlockedCosmetics ++ [id]
      activeCosmetic := id }

/-- The "Pay 200 XP" branch of `offerSecondChance` (page.tsx 649-667):
only when `xp ≥ 200` are the 200 XP deducted and the lost game's stats
reverted; otherwise nothing changes.  Guests never reach the modal. -/
def secondChancePay (isGuest : Bool) (lostWager : Int) (u : UserState) : UserState :=
  if isGuest then u
  else if 200 ≤ u.xp then
    { u with
      xp := u.xp - 200
      totalWagered := u.totalWagered - lostWager
      gamesPlayed := u.gamesPlayed - 1
      dailyGamesPlayed := u.dailyGamesPlayed - 1 }
  else u

/-- `updateDailyStreak` (page.tsx 924-959), parameterised by today's and
yesterday's date strings.  The milestone condition reads the pre-call
snapshot (`user.dailyStreak + 1`), while the bonus amount reads the
already-updated queued state (`prev.dailyStreak + 1` after the streak
update has been applied) — React functional updaters chain. -/
def updateDailyStreak (isGuest : Bool) (today yesterdayStr : String) (u : UserState) :
    UserState :=
  if isGuest then u
  else if u.lastPlayDate = "" then { u with dailyStreak := 1, lastPlayDate := today }
  else if u.lastPlayDate = today then u
  else
    let u1 : UserState :=
      if u.lastPlayDate = yesterdayStr then { u with dailyStreak := u.dailyStreak + 1 }
      else { u with dailyStreak := 1 }
    let u2 : UserState := { u1 with lastPlayDate := today, dailyGamesPlayed := 0 }
    if u.dailyStreak + 1 ≥ 3 ∧ (u.dailyStreak + 1) % 3 = 0 then
      { u2 with xp := u2.xp + 100 * (u2.dailyStreak + 1) }
    else u2

/-- Last element of a tick-time list, with default `t` (used to continue
a chain of tick times after a prefix has been consumed). -/
def lastD (t : ℕ) : List ℕ → ℕ
  | [] => t
  | t2 :: ts => lastD t2 ts

/-- Invariant of the climb loop after all ticks up to elapsed time `t`:
the crash point is untouched, the displayed multiplier never exceeds it,
while the loop is live the displayed multiplier equals the interval-local
`lastMultiplier` and is bounded by the curve at `t`, and once the crash
clamp fired the displayed multiplier is exactly the crash point. -/
def ClimbInv (t : ℕ) (cp : ℚ) (s : ClimbState) : Prop :=
  s.game.crashPoint = cp ∧
  s.game.currentMultiplier ≤ cp ∧
  (s.crashed = false →
    s.game.currentMultiplier = s.lastMultiplier ∧ s.lastMultiplier ≤ climbMultiplier t) ∧
  (s.crashed = true → s.game.currentMultiplier = cp)

/-- A concrete player state used by the closed witness theorems. -/
def sampleUser : UserState :=
  { xp := 1000, totalWagered := 0, totalWon := 0, gamesPlayed := 0,
    dailyGamesPlayed := 0, biggestWin := 0, biggestMultiplier := 1,
    winStreak := 0, currentStreak := 0, dailyStreak := 0, lastPlayDate := "",
    unlockedCosmetics := [], activeCosmetic := "" }

/-- A concrete running round (wager 100, crash point 2.00) used by the
closed witness theorems. -/
def sampleRunningGame : GameState :=
  { isWaiting := false, isRunning := true, isCrashed := false, isExploding := false,
    userCashedOut := false, userWagerXP := 100, crashPoint := 2,
    currentMultiplier := 1, userCashOutMultiplier := none, userWinningsXP := 0,
    lastRounds := [] }

/-- A concrete waiting round used by the closed witness theorems. -/
def sampleWaitingGame : GameState :=
  { isWaiting := true, isRunning := false, isCrashed := false, isExploding := false,
    userCashedOut := false, userWagerXP := 10, crashPoint := 0,
    currentMultiplier := 1, userCashOutMultiplier := none, userWinningsXP := 0,
    lastRounds := [] }

/-- A concrete running round whose history is already at the 10-entry
cap, most-recent-first. -/
def sampleFullHistoryGame : GameState :=
  { sampleRunningGame with
    currentMultiplier := 11/10
    lastRounds := [10, 9, 8, 7, 6, 5, 4, 3, 2, 1] }

/-- The mystery-box reward table of `triggerMysteryBox` (page.tsx
567-572), used by the closed witness theorems. -/
def sampleRewards : List Reward :=
  [ { type := "xp", amount := some 500, id := none, value := none, duration := none,
      rarity := "common", message := "Bonus 500 XP!", weight := 5 },
    { type := "xp", amount := some 1000, id := none, value := none, duration := none,
      rarity := "rare", message := "Big 1000 XP Boost!", weight := 2 },
    { type := "cosmetic", amount := none, id := some "golden_ring", value := none,
      duration := none, rarity := "epic", message := "Golden Ring Cosmetic!", weight := 1 },
    { type := "multiplier_boost", amount := none, id := none, value := some (11/10),
      duration := some 600, rarity := "rare", message := "1.1x XP for 10 min!", weight := 2 } ]

/-- Claim C1: with no round running and `10 ≤ wager ≤ xp`, `placeWager`
succeeds: `xp` drops by exactly the wager and the round is `Running`
(`isRunning = true`, `isWaiting = false`). -/
theorem placeWager_success (cp : ℚ) (u : UserState) (g : GameState)
    (hrun : g.isRunning = false) (h10 : 10 ≤ g.userWagerXP) (hxp : g.userWagerXP ≤ u.xp) :
    (placeWager cp u g).1.xp = u.xp - g.userWagerXP ∧
      (placeWager cp u g).2.isRunning = true ∧
      (placeWager cp u g).2.isWaiting = false := by
  have h0 : ¬g.userWagerXP ≤ 0 := by omega
  have h1 : ¬g.userWagerXP > u.xp := by omega
  simp [placeWager, startRound, hrun, h0, h1]

theorem placeWager_success_witness :
    ((false = false ∧ (10 : Int) ≤ 10 ∧ (10 : Int) ≤ 100) ∧
      (placeWager 2
        { xp := 100, totalWagered := 0, totalWon := 0, gamesPlayed := 0,
          dailyGamesPlayed := 0, biggestWin := 0, biggestMultiplier := 1,
          winStreak := 0, currentStreak := 0, dailyStreak := 0, lastPlayDate := "",
          unlockedCosmetics := [], activeCosmetic := "" }
        { isWaiting := true, isRunning := false, isCrashed := false, isExploding := false,
          userCashedOut := false, userWagerXP := 10, crashPoint := 0,
          currentMultiplier := 1, userCashOutMultiplier := none, userWinningsXP := 0,
          lastRounds := [] }).1.xp = 90) := by
  refine ⟨⟨rfl, by decide, by decide⟩, ?_⟩
  have h := placeWager_success 2
    { xp := 100, totalWagered := 0, totalWon := 0, gamesPlayed := 0,
      dailyGamesPlayed := 0, biggestWin := 0, biggestMultiplier := 1,
      winStreak := 0, currentStreak := 0, dailyStreak := 0, lastPlayDate := "",
      unlockedCosmetics := [], activeCosmetic := "" }
    { isWaiting := true, isRunning := false, isCrashed := false, isExploding := false,
      userCashedOut := false, userWagerXP := 10, crashPoint := 0,
      currentMultiplier := 1, userCashOutMultiplier := none, userWinningsXP := 0,
      lastRounds := [] }
    rfl (by decide) (by decide)
  simpa using h.1

theorem climbMultiplier_one_le (t : ℕ) : 1 ≤ climbMultiplier t := by
  unfold climbMultiplier
  have h : (0 : ℚ) ≤ ((t : ℚ) / 1000) ^ 2 * (1 / 10) := by positivity
  linarith

theorem climbMultiplier_mono {t t2 : ℕ} (h : t ≤ t2) :
    climbMultiplier t ≤ climbMultiplier t2 := by
  have ht : ((t : ℚ)) ≤ (t2 : ℚ) := by exact_mod_cast h
  unfold climbMultiplier
  have h2 : ((t : ℚ) / 1000) ^ 2 ≤ ((t2 : ℚ) / 1000) ^ 2 := by
    have h0 : (0 : ℚ) ≤ (t : ℚ) / 1000 := by positivity
    have h1 : ((t : ℚ) / 1000) ≤ ((t2 : ℚ) / 1000) := by linarith
    exact pow_le_pow_left₀ h0 h1 2
  linarith

theorem climbTick_inv {cp : ℚ} {t t2 : ℕ} {s : ClimbState} (hcp : 1 ≤ cp)
    (htt : t ≤ t2) (h : ClimbInv t cp s) :
    ClimbInv t2 cp (climbTick t2 s) ∧
      s.game.currentMultiplier ≤ (climbTick t2 s).game.currentMultiplier := by
  obtain ⟨hcp0, hle, hlive, hcr⟩ := h
  by_cases hcrash : s.crashed = true
  · have he : climbTick t2 s = s := by simp [climbTick, hcrash]
    rw [he]
    refine ⟨⟨hcp0, hle, ?_, fun _ => hcr hcrash⟩, le_refl _⟩
    intro hf; rw [hf] at hcrash; cases hcrash
  · have hcrash2 : s.crashed = false := by simpa using hcrash
    obtain ⟨heq, hlast⟩ := hlive hcrash2
    by_cases hclamp : s.game.crashPoint ≠ 0 ∧ climbMultiplier t2 ≥ s.game.crashPoint
    · have he : climbTick t2 s =
          { s with
            game := { s.game with currentMultiplier := s.game.crashPoint }
            crashed := true } := by
        simp [climbTick, hcrash2, hclamp]
      rw [he]
      refine ⟨⟨hcp0, le_of_eq hcp0, ?_, fun _ => hcp0⟩, ?_⟩
      · intro hf; simp at hf
      · rw [hcp0]; exact hle
    · have hne : s.game.crashPoint ≠ 0 := by
        rw [hcp0]; intro h0; rw [h0] at hcp; norm_num at hcp
      have hlt : climbMultiplier t2 < s.game.crashPoint := by
        by_contra hge
        exact hclamp ⟨hne, le_of_not_lt hge⟩
      by_cases habs : |climbMultiplier t2 - s.lastMultiplier| > 1 / 100
      · have he : climbTick t2 s =
            { s with
              game := { s.game with currentMultiplier := climbMultiplier t2 }
              lastMultiplier := climbMultiplier t2 } := by
          simp only [gt_iff_lt, one_div] at habs
          simp [climbTick, hcrash2, hclamp]
          intro hf
          exact absurd hf (not_le.mpr habs)
        rw [he]
        refine ⟨⟨hcp0, le_of_lt (by rwa [hcp0] at hlt), fun _ => ⟨rfl, le_refl _⟩, ?_⟩, ?_⟩
        · intro hf; rw [hcrash2] at hf; cases hf
        · calc s.game.currentMultiplier = s.lastMultiplier := heq
            _ ≤ climbMultiplier t := hlast
            _ ≤ climbMultiplier t2 := climbMultiplier_mono htt
      · have he : climbTick t2 s = s := by
          simp only [gt_iff_lt, one_div, not_lt] at habs
          simp [climbTick, hcrash2, hclamp]
          intro hf
          exact absurd habs (not_le.mpr hf)
        rw [he]
        refine ⟨⟨hcp0, hle,
          fun _ => ⟨heq, le_trans hlast (climbMultiplier_mono htt)⟩, fun hf => ?_⟩, le_refl _⟩
        rw [hcrash2] at hf; cases hf

theorem runClimb_cons (t : ℕ) (ts : List ℕ) (s : ClimbState) :
    runClimb s (t :: ts) = runClimb (climbTick t s) ts := rfl

theorem runClimb_append (s : ClimbState) (a b : List ℕ) :
    runClimb s (a ++ b) = runClimb (runClimb s a) b := by
  simp [runClimb, List.foldl_append]

theorem runClimb_inv {cp : ℚ} (hcp : 1 ≤ cp) :
    ∀ (ts : List ℕ) (t : ℕ) (s : ClimbState),
      List.Chain (· ≤ ·) t ts → ClimbInv t cp s →
      ClimbInv (lastD t ts) cp (runClimb s ts) ∧
        s.game.currentMultiplier ≤ (runClimb s ts).game.currentMultiplier := by
  intro ts
  induction ts with
  | nil => intro t s _ h; exact ⟨h, le_refl _⟩
  | cons t2 ts ih =>
      intro t s hch h
      rw [List.chain_cons] at hch
      have step := climbTick_inv hcp hch.1 h
      have rest := ih t2 (climbTick t2 s) hch.2 step.1
      rw [runClimb_cons]
      exact ⟨rest.1, le_trans step.2 rest.2⟩

theorem chain_le_append {a : List ℕ} :
    ∀ {t : ℕ} {b : List ℕ}, List.Chain (· ≤ ·) t (a ++ b) →
      List.Chain (· ≤ ·) t a ∧ List.Chain (· ≤ ·) (lastD t a) b := by
  induction a with
  | nil => intro t b h; exact ⟨List.Chain.nil, h⟩
  | cons x xs ih =>
      intro t b h
      rw [List.cons_append, List.chain_cons] at h
      obtain ⟨hx, h2⟩ := h
      obtain ⟨h3, h4⟩ := ih h2
      exact ⟨List.chain_cons.mpr ⟨hx, h3⟩, h4⟩

theorem climbInv_init {cp : ℚ} {g0 : GameState} (hcp : 1 ≤ cp)
    (hg : g0.crashPoint = cp) (hm : g0.currentMultiplier = 1) :
    ClimbInv 0 cp { game := g0, lastMultiplier := 1, crashed := false } := by
  refine ⟨hg, by rw [hm]; exact hcp, fun _ => ⟨hm, climbMultiplier_one_le 0⟩, fun hf => ?_⟩
  cases hf

/-- Claim C4: the climb tick computes `multiplier(t) = 1 + 0.1 * (t/1000)^2`;
over any nondecreasing sequence of tick times the displayed multiplier is
non-decreasing (every prefix of the run shows a value no larger than the
full run) and never exceeds the crash point; and when the computed value
reaches the crash point it is clamped to exactly the crash point and the
scheduled `crashGame` settles the round as Crashed. -/
theorem multiplier_climb_spec (cp : ℚ) (g0 : GameState) (ts : List ℕ)
    (isGuest : Bool) (u : UserState)
    (hcp : 1 ≤ cp) (hg : g0.crashPoint = cp) (hm : g0.currentMultiplier = 1)
    (hch : List.Chain (· ≤ ·) 0 ts) :
    (∀ t : ℕ, climbMultiplier t = 1 + (1 / 10) * ((t : ℚ) / 1000) ^ 2) ∧
    (∀ a b : List ℕ, ts = a ++ b →
      (runRound g0 a).game.currentMultiplier ≤ (runRound g0 ts).game.currentMultiplier) ∧
    (runRound g0 ts).game.currentMultiplier ≤ cp ∧
    ((runRound g0 ts).crashed = true →
      (runRound g0 ts).game.currentMultiplier = cp ∧
      (crashGame isGuest u (runRound g0 ts).game).2.isCrashed = true) := by
  have hinit := climbInv_init hcp hg hm
  have main := runClimb_inv hcp ts 0 _ hch hinit
  refine ⟨fun t => by unfold climbMultiplier; ring, ?_, main.1.2.1,
    fun hcr => ⟨main.1.2.2.2 hcr, by simp [crashGame]⟩⟩
  intro a b hab
  subst hab
  unfold runRound
  rw [runClimb_append]
  obtain ⟨hca, hcb⟩ := chain_le_append hch
  have inva := runClimb_inv hcp a 0 _ hca hinit
  exact (runClimb_inv hcp b (lastD 0 a) _ hcb inva.1).2

theorem climbTick_frame (t : ℕ) (s : ClimbState) :
    (climbTick t s).game.isRunning = s.game.isRunning ∧
    (climbTick t s).game.userCashedOut = s.game.userCashedOut := by
  simp only [climbTick]
  split_ifs <;> simp

theorem runClimb_frame (ts : List ℕ) :
    ∀ s : ClimbState,
      (runClimb s ts).game.isRunning = s.game.isRunning ∧
      (runClimb s ts).game.userCashedOut = s.game.userCashedOut := by
  induction ts with
  | nil => intro s; exact ⟨rfl, rfl⟩
  | cons t ts ih =>
      intro s
      rw [runClimb_cons]
      obtain ⟨h1, h2⟩ := climbTick_frame t s
      obtain ⟨h3, h4⟩ := ih (climbTick t s)
      exact ⟨h3.trans h1, h4.trans h2⟩

theorem multiplier_climb_spec_witness :
    (runRound sampleRunningGame [0, 1000, 4000]).game.currentMultiplier ≤ 2 ∧
    ((runRound sampleRunningGame [0, 1000, 4000]).crashed = true →
      (runRound sampleRunningGame [0, 1000, 4000]).game.currentMultiplier = 2) := by
  have hch : List.Chain (· ≤ ·) 0 [0, 1000, 4000] :=
    List.Chain.cons (Nat.le_refl 0)
      (List.Chain.cons (by omega) (List.Chain.cons (by omega) List.Chain.nil))
  have h := multiplier_climb_spec 2 sampleRunningGame [0, 1000, 4000] false sampleUser
    (by norm_num) rfl rfl hch
  exact ⟨h.2.2.1, fun hc => (h.2.2.2 hc).1⟩

/-- Claim C2: a cash-out performed while the round is running and not yet
cashed out (the state being any state reachable by the climb loop from a
freshly started round) credits `winnings = floor(wager * cashOutMultiplier
* xpBoostMultiplier)` to `xp`, records them in the round, captures
`cashOutMultiplier = currentMultiplier`, and the captured multiplier never
exceeds the round's crash point. -/
theorem cashOut_spec (cp : ℚ) (g0 : GameState) (ts : List ℕ)
    (isGuest : Bool) (boost : ℚ) (u : UserState)
    (hcp : 1 ≤ cp) (hg : g0.crashPoint = cp) (hm : g0.currentMultiplier = 1)
    (hch : List.Chain (· ≤ ·) 0 ts)
    (hrun : (runRound g0 ts).game.isRunning = true)
    (hnc : (runRound g0 ts).game.userCashedOut = false) :
    (cashOut isGuest boost u (runRound g0 ts).game).1.xp =
      u.xp + ⌊((runRound g0 ts).game.userWagerXP : ℚ) *
        (runRound g0 ts).game.currentMultiplier * boost⌋ ∧
    (cashOut isGuest boost u (runRound g0 ts).game).2.userWinningsXP =
      ⌊((runRound g0 ts).game.userWagerXP : ℚ) *
        (runRound g0 ts).game.currentMultiplier * boost⌋ ∧
    (cashOut isGuest boost u (runRound g0 ts).game).2.userCashOutMultiplier =
      some (runRound g0 ts).game.currentMultiplier ∧
    (cashOut isGuest boost u (runRound g0 ts).game).2.userCashedOut = true ∧
    (runRound g0 ts).game.currentMultiplier ≤ cp := by
  have hinit := climbInv_init hcp hg hm
  have main := runClimb_inv hcp ts 0 _ hch hinit
  have hxp : ∀ (b : Bool) (u1 : UserState), (updateWinStreak b true u1).xp = u1.xp := by
    intro b u1; cases b <;> simp [updateWinStreak]
  refine ⟨?_, ?_, ?_, ?_, main.1.2.1⟩ <;> simp [cashOut, hrun, hnc, hxp]

theorem cashOut_spec_witness :
    (cashOut false 1 sampleUser
        (runRound sampleRunningGame [1000]).game).2.userCashOutMultiplier =
      some (runRound sampleRunningGame [1000]).game.currentMultiplier ∧
    (runRound sampleRunningGame [1000]).game.currentMultiplier ≤ 2 := by
  have hch : List.Chain (· ≤ ·) 0 [1000] :=
    List.Chain.cons (Nat.zero_le 1000) List.Chain.nil
  have hfr := runClimb_frame [1000]
    { game := sampleRunningGame, lastMultiplier := 1, crashed := false }
  have h := cashOut_spec 2 sampleRunningGame [1000] false 1 sampleUser
    (by norm_num) rfl rfl hch hfr.1 hfr.2
  exact ⟨h.2.2.1, h.2.2.2.2⟩

theorem updateWinStreak_xp (b w : Bool) (u : UserState) :
    (updateWinStreak b w u).xp = u.xp := by
  cases b <;> cases w <;> simp [updateWinStreak]

/-- Claim C5: the player's xp stays nonnegative across every embedded
operation: wagers above balance, unaffordable cosmetics and the 200-XP
second chance are rejected before mutation, and the remaining operations
only add nonnegative amounts (given a nonnegative wager, multiplier,
boost and daily streak). -/
theorem xp_never_negative (cp : ℚ) (u : UserState) (g : GameState)
    (isGuest won : Bool) (id : String) (price lostWager : Int) (boost : ℚ)
    (today yesterdayStr : String)
    (hxp : 0 ≤ u.xp) (hds : 0 ≤ u.dailyStreak)
    (hw : 0 ≤ g.userWagerXP) (hcm : 0 ≤ g.currentMultiplier) (hb : 0 ≤ boost) :
    0 ≤ (placeWager cp u g).1.xp ∧
    0 ≤ (buyCosmetic isGuest id price u).xp ∧
    0 ≤ (secondChancePay isGuest lostWager u).xp ∧
    0 ≤ (cashOut isGuest boost u g).1.xp ∧
    0 ≤ (crashGame isGuest u g).1.xp ∧
    0 ≤ (updateWinStreak isGuest won u).xp ∧
    0 ≤ (updateDailyStreak isGuest today yesterdayStr u).xp := by
  refine ⟨?_, ?_, ?_, ?_, ?_, ?_, ?_⟩
  · simp only [placeWager, startRound]
    split_ifs with h1 h2 h3
    · exact hxp
    · exact hxp
    · exact hxp
    · show 0 ≤ u.xp - g.userWagerXP
      omega
  · simp only [buyCosmetic]
    split_ifs with h1 h2 h3
    · exact hxp
    · exact hxp
    · exact hxp
    · show 0 ≤ u.xp - price
      omega
  · simp only [secondChancePay]
    split_ifs with h1 h2
    · exact hxp
    · show 0 ≤ u.xp - 200
      omega
    · exact hxp
  · by_cases hgo : ¬g.isRunning ∨ g.userCashedOut
    · simp only [cashOut, if_pos hgo]
      exact hxp
    · have hwin : 0 ≤ ⌊(g.userWagerXP : ℚ) * g.currentMultiplier * boost⌋ := by
        apply Int.le_floor.mpr
        push_cast
        have hq : (0 : ℚ) ≤ (g.userWagerXP : ℚ) := by exact_mod_cast hw
        exact mul_nonneg (mul_nonneg hq hcm) hb
      simp only [cashOut, if_neg hgo, updateWinStreak_xp]
      exact add_nonneg hxp hwin
  · have hcg : (crashGame isGuest u g).1.xp = u.xp := by
      simp only [crashGame]
      split_ifs <;> simp [updateWinStreak_xp]
    rw [hcg]; exact hxp
  · rw [updateWinStreak_xp]; exact hxp
  · have hgoal : (updateDailyStreak isGuest today yesterdayStr u).xp = u.xp ∨
        (updateDailyStreak isGuest today yesterdayStr u).xp =
          u.xp + 100 * (u.dailyStreak + 1 + 1) ∨
        (updateDailyStreak isGuest today yesterdayStr u).xp = u.xp + 100 * (1 + 1) := by
      simp only [updateDailyStreak]
      split_ifs <;> simp
    rcases hgoal with h | h | h <;> rw [h] <;> omega

theorem xp_never_negative_witness :
    0 ≤ (placeWager 2 sampleUser sampleRunningGame).1.xp ∧
    0 ≤ (buyCosmetic false "golden_ring" 100 sampleUser).xp ∧
    0 ≤ (cashOut false 1 sampleUser sampleRunningGame).1.xp := by
  have h := xp_never_negative 2 sampleUser sampleRunningGame false true
    "golden_ring" 100 50 1 "2024-01-02" "2024-01-01"
    (by norm_num [sampleUser]) (by norm_num [sampleUser])
    (by norm_num [sampleRunningGame]) (by norm_num [sampleRunningGame]) (by norm_num)
  exact ⟨h.1, h.2.1, h.2.2.2.1⟩

/-- Claim C7: with `u` the bucket draw and `u2` the within-bucket draw,
`generateCrashPoint` returns `1.01 + u2*0.5` when `u < 0.5`, `1.5 +
u2*1.5` when `0.5 ≤ u < 0.8`, `3 + u2*7` when `0.8 ≤ u < 0.95`, and `10 +
u2*40` when `0.95 ≤ u < 1`; the result is always strictly greater than
`1.00`. -/
theorem generateCrashPoint_spec (u u2 : ℚ)
    (hu0 : 0 ≤ u) (hu1 : u < 1) (hv0 : 0 ≤ u2) (hv1 : u2 < 1) :
    (u < 1/2 → generateCrashPoint u u2 = 101/100 + u2 * (1/2)) ∧
    (1/2 ≤ u → u < 4/5 → generateCrashPoint u u2 = 3/2 + u2 * (3/2)) ∧
    (4/5 ≤ u → u < 19/20 → generateCrashPoint u u2 = 3 + u2 * 7) ∧
    (19/20 ≤ u → generateCrashPoint u u2 = 10 + u2 * 40) ∧
    1 < generateCrashPoint u u2 := by
  refine ⟨fun h => by rw [generateCrashPoint, if_pos h], ?_, ?_, ?_, ?_⟩
  · intro h1 h2
    rw [generateCrashPoint, if_neg (not_lt.mpr h1), if_pos h2]
  · intro h1 h2
    rw [generateCrashPoint, if_neg (not_lt.mpr (by linarith)),
      if_neg (not_lt.mpr h1), if_pos h2]
  · intro h1
    rw [generateCrashPoint, if_neg (not_lt.mpr (by linarith)),
      if_neg (not_lt.mpr (by linarith)), if_neg (not_lt.mpr h1)]
  · rw [generateCrashPoint]
    split_ifs <;> nlinarith

theorem generateCrashPoint_spec_witness :
    generateCrashPoint 0 0 = 101/100 + 0 * (1/2) ∧ 1 < generateCrashPoint 0 0 := by
  have h := generateCrashPoint_spec 0 0 (le_refl 0) (by norm_num) (le_refl 0) (by norm_num)
  exact ⟨h.1 (by norm_num), h.2.2.2.2⟩

theorem totalWeight_cons (y : Reward) (ys : List Reward) :
    totalWeight (y :: ys) = y.weight + totalWeight ys := by
  simp [totalWeight]

theorem totalWeight_nonneg {l : List Reward} (hw : ∀ x ∈ l, 0 < x.weight) :
    0 ≤ totalWeight l := by
  apply List.sum_nonneg
  intro a ha
  obtain ⟨x, hx, rfl⟩ := List.mem_map.mp ha
  exact le_of_lt (hw x hx)

theorem weightedScan_mem : ∀ (l : List Reward) (r : ℚ) (x : Reward),
    weightedScan l r = some x → x ∈ l := by
  intro l
  induction l with
  | nil => intro r x h; cases h
  | cons y ys ih =>
      intro r x h
      rw [weightedScan] at h
      split_ifs at h with hc
      · cases h; exact List.mem_cons_self _ _
      · exact List.mem_cons_of_mem _ (ih _ _ h)

theorem weightedScan_isSome : ∀ (l : List Reward) (r : ℚ),
    0 ≤ r → r < totalWeight l → ∃ x, weightedScan l r = some x := by
  intro l
  induction l with
  | nil =>
      intro r h0 h1
      exfalso
      simp [totalWeight] at h1
      linarith
  | cons y ys ih =>
      intro r h0 h1
      rw [weightedScan]
      split_ifs with hc
      · exact ⟨y, rfl⟩
      · have hyw : y.weight ≤ r := not_lt.mp hc
        have h1c : r - y.weight < totalWeight ys := by
          rw [totalWeight_cons] at h1
          linarith
        exact ih _ (by linarith) h1c

theorem weightedScan_eq_spanFirst : ∀ (l : List Reward) (r acc : ℚ),
    0 ≤ r → weightedScan l r = spanFirst acc l (r + acc) := by
  intro l
  induction l with
  | nil => intro r acc _; rfl
  | cons y ys ih =>
      intro r acc h0
      rw [weightedScan, spanFirst]
      by_cases hc : r < y.weight
      · rw [if_pos hc, if_pos ⟨by linarith, by linarith⟩]
      · have hyw : y.weight ≤ r := not_lt.mp hc
        rw [if_neg hc, if_neg (fun hab => hc (by linarith [hab.2]))]
        have hrec := ih (r - y.weight) (acc + y.weight) (by linarith)
        have harith : r - y.weight + (acc + y.weight) = r + acc := by ring
        rw [harith] at hrec
        exact hrec

theorem weightedScan_none_of_total_le : ∀ (l : List Reward) (r : ℚ),
    (∀ x ∈ l, 0 < x.weight) → totalWeight l ≤ r → weightedScan l r = none := by
  intro l
  induction l with
  | nil => intro r _ _; rfl
  | cons y ys ih =>
      intro r hw htot
      rw [totalWeight_cons] at htot
      have hys : 0 ≤ totalWeight ys :=
        totalWeight_nonneg (fun x hx => hw x (List.mem_cons_of_mem _ hx))
      rw [weightedScan, if_neg (not_lt.mpr (by linarith))]
      exact ih _ (fun x hx => hw x (List.mem_cons_of_mem _ hx)) (by linarith)

/-- Claim C8: for a reward list with positive weights and a draw `r` in
`[0, totalWeight)`, the weighted sampler returns exactly the first entry
whose cumulative weight span contains `r` (and that entry is in the
list); when the scan falls through (`totalWeight ≤ r`) the first entry is
the fallback; hence a non-empty list always yields one of its elements. -/
theorem getWeightedRandomReward_spec (l : List Reward) (r : ℚ)
    (hw : ∀ x ∈ l, 0 < x.weight) :
    (0 ≤ r → r < totalWeight l →
      getWeightedRandomReward l r = spanFirst 0 l r ∧
      ∃ x, getWeightedRandomReward l r = some x ∧ x ∈ l) ∧
    (totalWeight l ≤ r → getWeightedRandomReward l r = l.head?) ∧
    (l ≠ [] → ∃ x, getWeightedRandomReward l r = some x ∧ x ∈ l) := by
  refine ⟨?_, ?_, ?_⟩
  · intro h0 h1
    obtain ⟨x, hx⟩ := weightedScan_isSome l r h0 h1
    have hspan := weightedScan_eq_spanFirst l r 0 h0
    rw [add_zero] at hspan
    constructor
    · rw [getWeightedRandomReward, hx, ← hspan, hx]
    · exact ⟨x, by rw [getWeightedRandomReward, hx], weightedScan_mem l r x hx⟩
  · intro htot
    rw [getWeightedRandomReward, weightedScan_none_of_total_le l r hw htot]
  · intro hne
    cases hscan : weightedScan l r with
    | some x =>
        exact ⟨x, by rw [getWeightedRandomReward, hscan], weightedScan_mem l r x hscan⟩
    | none =>
        obtain ⟨y, ys, rfl⟩ := List.exists_cons_of_ne_nil hne
        exact ⟨y, by rw [getWeightedRandomReward, hscan]; rfl, List.mem_cons_self _ _⟩

theorem getWeightedRandomReward_spec_witness :
    ∃ x, getWeightedRandomReward sampleRewards 6 = some x ∧ x ∈ sampleRewards := by
  have h := getWeightedRandomReward_spec sampleRewards 6 (by decide)
  exact (h.1 (by norm_num) (by simp [totalWeight, sampleRewards]; norm_num)).2

/-- Claim C3 (code behaviour at the failing input): the guard in the
source is `wager <= 0`, not `wager < 10`, so a wager of 5 — below the
minimum announced by the code's own error message "Wager must be at least
10 XP!" — is accepted: xp drops by 5 and the round starts running instead
of being rejected with no state change.  (A wager exceeding the balance
is rejected as claimed.) -/
theorem placeWager_below_minimum_eval :
    (placeWager 2 sampleUser { sampleWaitingGame with userWagerXP := 5 }).1.xp = 995 ∧
    (placeWager 2 sampleUser { sampleWaitingGame with userWagerXP := 5 }).2.isRunning = true ∧
    (placeWager 2 { sampleUser with xp := 3 } { sampleWaitingGame with userWagerXP := 5 }).1 =
      { sampleUser with xp := 3 } := by
  refine ⟨?_, ?_, ?_⟩ <;> norm_num [placeWager, startRound, sampleUser, sampleWaitingGame]

/-- Claim C9 (code behaviour at the failing input): with `dailyStreak = 2`
and `lastPlayDate` equal to yesterday, the update reaches the milestone
streak 3 but credits `100 * 4 = 400` XP — the bonus amount reads the
already-updated streak (`prev.dailyStreak + 1` after the increment has
been queued) — instead of the `100 * 3` the spec states; moreover with a
stale `lastPlayDate` the streak resets to 1 yet a `100 * 2 = 200` XP
bonus is still granted, because the milestone test uses the pre-reset
streak. -/
theorem updateDailyStreak_bonus_eval :
    (updateDailyStreak false "2024-01-02" "2024-01-01"
      { sampleUser with
        dailyStreak := 2
        lastPlayDate := "2024-01-01"
        xp := 0 }).dailyStreak = 3 ∧
    (updateDailyStreak false "2024-01-02" "2024-01-01"
      { sampleUser with dailyStreak := 2, lastPlayDate := "2024-01-01", xp := 0 }).xp = 400 ∧
    (updateDailyStreak false "2024-01-02" "2024-01-01"
      { sampleUser with
        dailyStreak := 2
        lastPlayDate := "2023-12-25"
        xp := 0 }).dailyStreak = 1 ∧
    (updateDailyStreak false "2024-01-02" "2024-01-01"
      { sampleUser with dailyStreak := 2, lastPlayDate := "2023-12-25", xp := 0 }).xp = 200 := by
  refine ⟨?_, ?_, ?_, ?_⟩ <;> decide

/-- Claim C6 counterexample: cashing out settles the round — the state
reaches the terminal CashedOut configuration (`userCashedOut = true`,
`isRunning = false`) — yet no entry is recorded in the round history:
`lastRounds` stays empty, refuting "on every settlement the round's final
multiplier is prepended to the round history". -/
theorem settlement_history_counterexample :
    (cashOut false 1 sampleUser sampleRunningGame).2.userCashedOut = true ∧
    (cashOut false 1 sampleUser sampleRunningGame).2.isRunning = false ∧
    (cashOut false 1 sampleUser sampleRunningGame).2.lastRounds = [] := by
  refine ⟨?_, ?_, ?_⟩ <;> simp [cashOut, sampleRunningGame]

/-- Claim C6 amended: on every crash settlement (`crashGame`) the round's
final multiplier is prepended to the history (most-recent-first), the
history never exceeds 10 entries, and when already at capacity the oldest
(last) entry is the one evicted; cash-out settlements record no history
entry. -/
theorem crashGame_history (isGuest : Bool) (u : UserState) (g : GameState) :
    (crashGame isGuest u g).2.lastRounds = (g.currentMultiplier :: g.lastRounds).take 10 ∧
    (crashGame isGuest u g).2.lastRounds.length ≤ 10 ∧
    (g.lastRounds.length = 10 →
      (crashGame isGuest u g).2.lastRounds =
        g.currentMultiplier :: g.lastRounds.dropLast) := by
  refine ⟨by simp [crashGame], ?_, ?_⟩
  · simp only [crashGame]
    exact List.length_take_le 10 _
  · intro h10
    simp only [crashGame]
    rw [show (10 : ℕ) = 9 + 1 from rfl, List.take_succ_cons,
      List.dropLast_eq_take, h10]

theorem crashGame_history_witness :
    (crashGame false sampleUser sampleFullHistoryGame).2.lastRounds =
      sampleFullHistoryGame.currentMultiplier ::
        sampleFullHistoryGame.lastRounds.dropLast := by
  exact (crashGame_history false sampleUser sampleFullHistoryGame).2.2 (by decide)

/-- Claim C10: settlement statistics are asymmetric in guest mode — a
crash loss leaves the player state entirely unchanged (in particular
`totalWagered`, `gamesPlayed` and `currentStreak`, whose updates are
authentication-gated), while a guest cash-out still credits `xp` and
increments `totalWon`, `totalWagered` and `gamesPlayed` unconditionally. -/
theorem guest_settlement_asymmetry (u : UserState) (g : GameState) (boost : ℚ)
    (hrun : g.isRunning = true) (hnc : g.userCashedOut = false) :
    (crashGame true u g).1 = u ∧
    (cashOut true boost u g).1.xp =
      u.xp + ⌊(g.userWagerXP : ℚ) * g.currentMultiplier * boost⌋ ∧
    (cashOut true boost u g).1.totalWon =
      u.totalWon + ⌊(g.userWagerXP : ℚ) * g.currentMultiplier * boost⌋ ∧
    (cashOut true boost u g).1.totalWagered = u.totalWagered + g.userWagerXP ∧
    (cashOut true boost u g).1.gamesPlayed = u.gamesPlayed + 1 := by
  refine ⟨?_, ?_, ?_, ?_, ?_⟩
  · simp [crashGame, updateWinStreak, hnc]
  all_goals simp [cashOut, hrun, hnc, updateWinStreak]

theorem guest_settlement_asymmetry_witness :
    (crashGame true sampleUser sampleRunningGame).1 = sampleUser ∧
    (cashOut true 1 sampleUser sampleRunningGame).1.gamesPlayed = 1 := by
  have h := guest_settlement_asymmetry sampleUser sampleRunningGame 1 rfl rfl
  refine ⟨h.1, ?_⟩
  rw [h.2.2.2.2]
  norm_num [sampleUser]
